import Mathlib

/-!
Verification of `qchem/qchem_script_builder.py` (dreuwBin).

The file embeds the Q-Chem v4.0 job-script builder: the input-file scanner
`_parse_infile`, the argument examination `examine_args`, the payload
generator `v40_qchem_payload.generate` and `v40.build_script`.  The external
collaborators (`queuing_system_data`, the `jobscript_builder` base class,
`shared_utils_lib`) are not part of the sources and are modelled from the
specification where needed; each such definition says so in its doc comment.
-/

set_option maxRecDepth 4000

/-! ## Python string primitives -/

/-- Whitespace characters removed by Python's `str.strip()`. -/
def pySpace (c : Char) : Bool :=
  c = ' ' || c = '\t' || c = '\n' || c = '\x0b' || c = '\x0c' || c = '\r'

/-- Python `str.strip()` on a character list. -/
def pstripList (l : List Char) : List Char :=
  ((l.dropWhile pySpace).reverse.dropWhile pySpace).reverse

/-- Python `str.strip()`. -/
def pstrip (s : String) : String := String.mk (pstripList s.toList)

/-- Python slice `s[n:]`. -/
def strDrop (s : String) (n : Nat) : String := String.mk (s.toList.drop n)

/-- Prefix test on character lists (`lhasPre s p` iff `p` is a prefix of `s`). -/
def lhasPre : List Char → List Char → Bool
  | _, [] => true
  | [], _ :: _ => false
  | a :: as, b :: bs => a = b && lhasPre as bs

/-- Python `s.startswith(p)`. -/
def pStarts (s p : String) : Bool := lhasPre s.toList p.toList

/-- Decimal digit test. -/
def isDigitCh (c : Char) : Bool := '0' ≤ c && c ≤ '9'

/-- Numeric value of a digit character. -/
def digitVal (c : Char) : Nat := c.toNat - 48

/-- No two adjacent underscores. -/
def noAdjUnd : List Char → Bool
  | a :: b :: r => !(a = '_' && b = '_') && noAdjUnd (b :: r)
  | _ => true

/-- Validity of the body of a Python decimal integer literal:
nonempty, first and last characters are digits, all characters are digits or
underscores, and underscores are never adjacent. -/
def pyIntBodyValid (l : List Char) : Bool :=
  (match l with | [] => false | c :: _ => isDigitCh c) &&
  (match l.getLast? with | some c => isDigitCh c | none => false) &&
  l.all (fun c => isDigitCh c || c = '_') &&
  noAdjUnd l

/-- Value of a digit/underscore list (underscores skipped). -/
def pyIntVal (l : List Char) : Nat :=
  (l.filter isDigitCh).foldl (fun a c => a * 10 + digitVal c) 0

/-- Helper modelling Python's `int(s)` on decimal strings: strips whitespace,
allows one optional sign, digits with single underscores between them. -/
def pyInt (s : String) : Option Int :=
  match pstripList s.toList with
  | '+' :: rest => if pyIntBodyValid rest then some ((pyIntVal rest : Nat) : Int) else none
  | '-' :: rest => if pyIntBodyValid rest then some (-((pyIntVal rest : Nat) : Int)) else none
  | l => if pyIntBodyValid l then some ((pyIntVal l : Nat) : Int) else none

/-- Index of the last occurrence of `c` in a character list. -/
def lastIdx (c : Char) : List Char → Option Nat
  | [] => none
  | x :: xs =>
    match lastIdx c xs with
    | some i => some (i + 1)
    | none => if x = c then some 0 else none

/-- Python `s.rfind(c)`: index of the last occurrence, `-1` when absent. -/
def pyRfind (s : String) (c : Char) : Int :=
  match lastIdx c s.toList with
  | some i => (i : Int)
  | none => -1

/-- `os.path.splitext` (posix): split off the extension at the last dot that
comes after the last path separator, unless the basename up to that dot is
all dots. -/
def splitext (p : String) : String × String :=
  if pyRfind p '/' < pyRfind p '.' then
    if ((p.toList.take (pyRfind p '.').toNat).drop
        (pyRfind p '/' + 1).toNat).all (fun c => c = '.') then (p, "")
    else (String.mk (p.toList.take (pyRfind p '.').toNat),
          String.mk (p.toList.drop (pyRfind p '.').toNat))
  else (p, "")

/-! ## Modelled external collaborators -/

/-- Modelled from the spec: node record of the external
`queuing_system.queuing_system_data` collaborator ("typed configuration
records (node counts, ...)"); `no_procs` is the processor count of the
node type, as set by `_parse_infile`. -/
structure node_type where
  no_procs : Int
deriving DecidableEq, Repr

/-- Modelled from the spec: the external `queuing_system_data` configuration
record ("node counts, memory limits, walltime, job name"). -/
structure queuing_system_data where
  walltime : Option Nat
  physical_memory : Option Int
  virtual_memory : Option Int
  job_name : Option String
  nodes : List node_type
deriving DecidableEq, Repr

/-- Modelled from the spec: number of node types registered. -/
def queuing_system_data.no_nodes (d : queuing_system_data) : Nat :=
  d.nodes.length

/-- Modelled from the spec: total processor count over all node types. -/
def queuing_system_data.no_procs (d : queuing_system_data) : Int :=
  (d.nodes.map node_type.no_procs).sum

/-- Modelled from the spec: append a node type to the configuration. -/
def queuing_system_data.add_node_type (d : queuing_system_data) (n : node_type) :
    queuing_system_data :=
  { d with nodes := d.nodes ++ [n] }

/-- Modelled from the spec: `shared_utils_lib.interpret_string_as_time_interval`
is not part of the sources; it is modelled as parsing a stripped plain decimal
count of seconds, and failing (`none`, i.e. raising) on anything else. -/
def interpret_string_as_time_interval (s : String) : Option Nat :=
  let l := pstripList s.toList
  if l ≠ [] && l.all isDigitCh then
    some ((l.foldl (fun a c => a * 10 + digitVal c) 0 : Nat))
  else none

/-- Modelled from the spec: the calculation environment of the external
`jobscript_builder` module, giving the shell variable names used by the
payload (`node_scratch_dir`, `return_value`). -/
structure calculation_environment where
  node_scratch_dir : String
  return_value : String
deriving DecidableEq, Repr

/-- Python exceptions escaping the embedded functions. -/
inductive pyError where
  | systemExit (msg : String)
  | typeError (msg : String)
  | attributeError (msg : String)
  | dataNotReady (msg : String)
deriving DecidableEq, Repr

deriving instance DecidableEq for Except

/-! ## The input-file scanner `v40._parse_infile` -/

/-- Scanner state: current section, configuration data, copy-in file list. -/
structure pstate where
  sect : Option String
  data : queuing_system_data
  copy_in : List String
deriving DecidableEq, Repr

/-- One line of `v40._parse_infile` (source lines 221-297).  The
`except ArgumentParser` clauses of the source name `argparse.ArgumentParser`,
which is not an exception class, so a failing parse raises `TypeError`
("catching classes that do not inherit from BaseException is not allowed")
instead of being swallowed. -/
def processLine (st : pstate) (raw : String) : Except pyError pstate :=
  let line := pstrip raw
  if pStarts line "!QSYS wt=" ∧ st.data.walltime = none then
    match interpret_string_as_time_interval (pstrip (strDrop line 9)) with
    | some t => .ok { st with data := { st.data with walltime := some t } }
    | none => .error (.typeError "catching classes that do not inherit from BaseException is not allowed")
  else if pStarts line "!QSYS np=" ∧ st.data.no_nodes = 0 then
    match interpret_string_as_time_interval (pstrip (strDrop line 9)) with
    | some t => .ok { st with data := st.data.add_node_type { no_procs := (t : Int) } }
    | none => .error (.typeError "catching classes that do not inherit from BaseException is not allowed")
  else if pStarts line "$end" then
    .ok { st with sect := none }
  else
    match st.sect with
    | none =>
      if pStarts line "$molecule" then .ok { st with sect := some "molecule" }
      else if pStarts line "$rem" then .ok { st with sect := some "rem" }
      else .ok st
    | some sec =>
      if sec = "molecule" then
        if pStarts line "READ" then
          .ok { st with copy_in := st.copy_in ++ [pstrip (strDrop line 4)] }
        else .ok st
      else if sec = "rem" then
        if pStarts line "threads" then
          match pyInt (pstrip (strDrop line 7)) with
          | none => .ok st
          | some no =>
            if (st.data.no_nodes : Int) < no then
              .ok { st with data := st.data.add_node_type { no_procs := no - (st.data.no_nodes : Int) } }
            else .ok st
        else if pStarts line "mem_total" then
          match pyInt (pstrip (strDrop line 9)) with
          | none => .ok st
          | some no =>
            let d1 := if st.data.physical_memory = none then
                { st.data with physical_memory := some (no * 1024 * 1024) } else st.data
            let d2 := if d1.virtual_memory = none then
                { d1 with virtual_memory := some (no * 1024 * 1024) } else d1
            .ok { st with data := d2 }
        else .ok st
      else .ok st

/-- `v40._parse_infile`: fold `processLine` over the lines of the file. -/
def parseLines (st : pstate) : List String → Except pyError pstate
  | [] => .ok st
  | l :: ls =>
    match processLine st l with
    | .error e => .error e
    | .ok st2 => parseLines st2 ls

/-! ## Argument records and builder state -/

/-- The `v40_qchem_args` record (source lines 61-70); every field starts as
`None` in `__init__`. -/
structure v40_qchem_args where
  infile : Option String := none
  outfile : Option String := none
  save_flag : Option Bool := none
  savedir : Option String := none
  np_flag : Option Bool := none
  nt_flag : Option Bool := none
  qchem_executable : Option String := none
  use_perf : Option Bool := none
deriving DecidableEq, Repr

/-- Python truthiness of an `Option Bool` attribute (`None` and `False` are
falsy). -/
def truthy (o : Option Bool) : Bool := o == some true

/-- The argparse namespace for the options `v40.add_entries_to_argparse`
declares (source lines 168-181): `infile` positional, `--out`, `--save`,
`--savedir`, `--np-to-qchem`, `--nt-to-qchem`, `--version`, `--perf`. -/
structure v40_args where
  infile : String
  out : Option String := none
  save : Bool := false
  savedir : Option String := none
  np_to_qchem : Bool := false
  nt_to_qchem : Bool := false
  version : Option String := none
  perf : Bool := false
deriving DecidableEq, Repr

/-- The world `examine_args` touches: `files` gives the lines of each existing
file (`os.path.isfile` is `isSome`), `vselector` is the external
`qchem-vselector` program (`none` = it exits with an error, raising
`CalledProcessError`). -/
structure pyenv where
  files : String → Option (List String)
  vselector : Option String → Option String

/-- Hooks registered with the external `jobscript_builder` base class:
`jsb.copy_in_hook`, `jsb.copy_out_hook` and this module's payload. -/
inductive jsb_hook where
  | copy_in (files : Option (List String))
  | copy_out (files : Option (List String))
  | qchem_payload (args : v40_qchem_args)
deriving DecidableEq, Repr

/-- State of a `v40` builder: the configuration data, the private fields of
`v40.__init__` (source lines 151-156), and the hook lists of the external
base class (modelled from the spec: `add_payload_hook`/`add_error_hook`
append a hook with its priority, default priority 0). -/
structure v40_state where
  qsys_data : queuing_system_data
  qchem_args : Option v40_qchem_args := none
  files_copy_in : Option (List String) := none
  files_copy_out : Option (List String) := none
  files_copy_error_out : Option (List String) := none
  payload_hooks : List (jsb_hook × Int) := []
  error_hooks : List (jsb_hook × Int) := []
deriving DecidableEq, Repr

/-! ## `determine_qchem_path` and `v40.examine_args` -/

/-- `determine_qchem_path` (source lines 34-55).  When the selector fails,
`subprocess.CalledProcessError` is raised and the handler evaluates
`e.argv[0]` — `CalledProcessError` has no attribute `argv`, so an
`AttributeError` escapes instead of the intended
`QChemPathNotDeterminedError`. -/
def determine_qchem_path (sel : Option String → Option String)
    (version_string : Option String) : Except pyError String :=
  match sel version_string with
  | some out => .ok (pstrip out)
  | none => .error (.attributeError "CalledProcessError object has no attribute argv")

/-- Occurrences of `c` in `s` (Python `s.count(c)` for a single character). -/
def countChar (s : String) (c : Char) : Nat := s.toList.count c

/-- `v40.examine_args` (source lines 300-366).  The base-class
`super().examine_args(args)` is external; it is modelled from the spec as
having already populated `s.qsys_data` with the common command-line options.
Note that when the selector rejects the version string the `AttributeError`
from `determine_qchem_path` propagates: the
`except QChemPathNotDeterminedError` clause never matches it. -/
def examine_args (args : v40_args) (ev : pyenv) (s : v40_state) :
    Except pyError v40_state :=
  if (ev.files args.infile).isNone then
    .error (.systemExit ("File not found: " ++ args.infile))
  else if args.save ∧ args.savedir = none then
    .error (.systemExit "If --save is provided a --savedir has to be set")
  else if (match args.savedir with
           | some d => decide (0 < countChar d '/')
           | none => false) then
    .error (.systemExit "The savedir given should not be a path, just a name")
  else
    match (match args.version with
           | none => Except.ok (none : Option String)
           | some v =>
             match determine_qchem_path ev.vselector (some v) with
             | .ok p => .ok (some p)
             | .error e => .error e) with
    | .error e => .error e
    | .ok exe =>
      let fe := splitext args.infile
      let filename := if fe.2 ≠ "in" then args.infile else fe.1
      let outfile := match args.out with
                     | none => filename ++ ".out"
                     | some o => o
      let qa : v40_qchem_args :=
        { infile := some args.infile
          outfile := some outfile
          save_flag := some args.save
          savedir := args.savedir
          np_flag := some args.np_to_qchem
          nt_flag := some args.nt_to_qchem
          qchem_executable := exe
          use_perf := some args.perf }
      let data1 := match s.qsys_data.job_name with
                   | none => { s.qsys_data with job_name := some filename }
                   | some _ => s.qsys_data
      match parseLines { sect := none, data := data1, copy_in := [args.infile] }
              ((ev.files args.infile).getD []) with
      | .error e => .error e
      | .ok pr =>
        let fco : List String := match qa.outfile with
                                 | some o => [] ++ [o]
                                 | none => []
        .ok { s with
              qsys_data := pr.data
              qchem_args := some qa
              files_copy_in := some pr.copy_in
              files_copy_out := some fco
              files_copy_error_out := some [outfile] }

/-! ## `v40_qchem_payload.generate` -/

/-- Concatenation of an attribute that must be a string: a `None` raises
`TypeError` in Python. -/
def pyOptStr (o : Option String) : Except pyError String :=
  match o with
  | some s => .ok s
  | none => .error (.typeError "can only concatenate str, not NoneType")

/-- Trailing savedir listing emitted by `generate` (source lines 133-142). -/
def savedir_listing (sd : Option String) : String :=
  match sd with
  | some d =>
      "\necho\n" ++
      "echo ------------------------------------------------------\n" ++
      "echo\n\n" ++
      "echo \"Files in $QCSCRATCH/" ++ d ++ ": \n" ++
      "(\n" ++
      "    cd \"$QCSCRATCH/" ++ d ++ "\"\n" ++
      "    ls -l | sed \x27s/^/    /g\x27 \n" ++
      ")\n"
  | none => ""

/-- `v40_qchem_payload.generate` (source lines 79-144): assemble the payload
shell fragment. -/
def generate (a : v40_qchem_args) (data : queuing_system_data)
    (calc_env : calculation_environment) : Except pyError String :=
  match pyOptStr a.infile with
  | .error e => .error e
  | .ok infile =>
    let args :=
      (match a.save_flag with | some true => " -save" | _ => "") ++
      (match a.np_flag with
       | some true => " -np " ++ toString data.no_procs | _ => "") ++
      (match a.nt_flag with
       | some true => " -nt " ++ toString data.no_procs | _ => "") ++
      " \"" ++ infile ++ "\"" ++
      (match a.outfile with | some o => " \"" ++ o ++ "\"" | none => "") ++
      (match a.savedir with | some d => " \"" ++ d ++ "\"" | none => "")
    match pyOptStr a.qchem_executable with
    | .error e => .error e
    | .ok exe =>
      let string := "export QCSCRATCH=\"$" ++ calc_env.node_scratch_dir ++ "\"\n"
      let string := string ++
        (match a.use_perf with
        | some true =>
          "if which perf &> /dev/null; then\n" ++
          "    perf " ++ exe ++ args ++ "\n" ++
          "    " ++ calc_env.return_value ++ "=$?\n" ++
          "else\n" ++
          "    /usr/bin/time -v " ++ exe ++ args ++ "\n" ++
          "    " ++ calc_env.return_value ++ "=$?\n" ++
          "fi\n"
        | _ =>
          exe ++ args ++ "\n" ++ calc_env.return_value ++ "=$?\n")
      let string := string ++ "\n"
      match pyOptStr a.outfile with
      | .error e => .error e
      | .ok outfile =>
        let string := string ++
          "# check if job terminated successfully\n" ++
          "if ! grep -q \"Thank you very much for using Q-Chem.  Have a nice day.\" \"" ++
          outfile ++ "\"; then\n" ++
          "    " ++ calc_env.return_value ++ "=1\n" ++
          "fi\n"
        .ok (string ++ savedir_listing a.savedir)

/-! ## `v40.build_script` -/

/-- `v40.build_script` (source lines 368-384): validity checks, then register
the copy-in hook at priority -1000, the payload hook (default priority 0),
the copy-out hook at priority 1000 and the error copy-out hook at priority
-1000 before delegating script assembly to the external base class. -/
def build_script (s : v40_state) : Except pyError v40_state :=
  match s.qchem_args with
  | none => .error (.attributeError "NoneType object has no attribute qchem_executable")
  | some a =>
    if a.qchem_executable = none then
      .error (.dataNotReady "No path to a Q-Chem wrapper script provided.")
    else if a.outfile = none then
      .error (.dataNotReady "No outputfile provided")
    else if truthy a.save_flag ∧ a.savedir = none then
      .error (.dataNotReady "If save_flag is set, we need a savedir as well")
    else
      .ok { s with
            payload_hooks := s.payload_hooks ++
              [(jsb_hook.copy_in s.files_copy_in, -1000),
               (jsb_hook.qchem_payload a, 0),
               (jsb_hook.copy_out s.files_copy_out, 1000)]
            error_hooks := s.error_hooks ++
              [(jsb_hook.copy_out s.files_copy_error_out, -1000)] }

/-! ## Claim-side (specification) definitions -/

/-- Claim-side payload script, assembled following the words of the spec
claim: export `QCSCRATCH` from the node scratch variable, invoke the
executable with `-save`, `-np n`, `-nt n`, quoted infile, quoted outfile,
quoted savedir in that fixed order (each exactly when the option is set),
capture the exit status into the return-value variable, then force the
return value to 1 when the outfile lacks the Q-Chem success line. -/
def generate_claim (i o exe : String) (sd : Option String)
    (saveF npF ntF : Bool) (nprocs : Int) (scratch rv : String) : String :=
  "export QCSCRATCH=\"$" ++ scratch ++ "\"\n" ++
  exe ++
  (match saveF with | true => " -save" | false => "") ++
  (match npF with | true => " -np " ++ toString nprocs | false => "") ++
  (match ntF with | true => " -nt " ++ toString nprocs | false => "") ++
  " \"" ++ i ++ "\"" ++
  " \"" ++ o ++ "\"" ++
  (match sd with | some d => " \"" ++ d ++ "\"" | none => "") ++
  "\n" ++ rv ++ "=$?\n" ++
  "\n" ++
  "# check if job terminated successfully\n" ++
  "if ! grep -q \"Thank you very much for using Q-Chem.  Have a nice day.\" \"" ++
  o ++ "\"; then\n" ++
  "    " ++ rv ++ "=1\n" ++
  "fi\n"

/-- Claim-side section tracking for the copy-in claim: `$end` leaves a
section, `$molecule` and `$rem` enter one. -/
def specSec (sec : Option String) (raw : String) : Option String :=
  let line := pstrip raw
  if pStarts line "$end" then none
  else match sec with
    | none =>
      if pStarts line "$molecule" then some "molecule"
      else if pStarts line "$rem" then some "rem"
      else none
    | some s => some s

/-- Claim-side extraction of the argument of a `READ` line inside a
`$molecule` section. -/
def readOf (sec : Option String) (raw : String) : List String :=
  let line := pstrip raw
  if sec = some "molecule" ∧ pStarts line "READ" then
    [pstrip (strDrop line 4)]
  else []

/-- Claim-side list of the arguments of all `READ` lines found inside
`$molecule` sections, in file order. -/
def specReads : Option String → List String → List String
  | _, [] => []
  | sec, l :: ls => readOf sec l ++ specReads (specSec sec l) ls

/-! ## Helper lemmas -/

theorem lhasPre_nil (q : List Char) : lhasPre q [] = true := by
  cases q <;> rfl

theorem lhasPre_of_both (s p q : List Char) (h1 : lhasPre s p = true)
    (h2 : lhasPre s q = true) (hlen : p.length ≤ q.length) :
    lhasPre q p = true := by
  induction s generalizing p q with
  | nil =>
    cases p with
    | nil => exact lhasPre_nil q
    | cons b bs => simp [lhasPre] at h1
  | cons a as ih =>
    cases p with
    | nil => exact lhasPre_nil q
    | cons b bs =>
      cases q with
      | nil => simp at hlen
      | cons c cs =>
        simp only [lhasPre, Bool.and_eq_true, decide_eq_true_eq] at h1 h2 ⊢
        obtain ⟨hab, h1b⟩ := h1
        obtain ⟨hac, h2b⟩ := h2
        exact ⟨by rw [← hac, ← hab], ih bs cs h1b h2b (by simpa using hlen)⟩

/-- Two concretely incomparable prefixes cannot both be prefixes of `s`. -/
theorem pStarts_excl (s p q : String) (h1 : pStarts s p = true)
    (h2 : lhasPre p.toList q.toList = false)
    (h3 : lhasPre q.toList p.toList = false) : pStarts s q = false := by
  cases hq : pStarts s q
  · rfl
  · exfalso
    rcases Nat.le_total p.toList.length q.toList.length with hle | hle
    · rw [lhasPre_of_both s.toList p.toList q.toList h1 hq hle] at h3
      exact Bool.noConfusion h3
    · rw [lhasPre_of_both s.toList q.toList p.toList hq h1 hle] at h2
      exact Bool.noConfusion h2

theorem lastIdx_get (c : Char) : ∀ (l : List Char) (i : Nat),
    lastIdx c l = some i → ∃ h : i < l.length, l.get ⟨i, h⟩ = c := by
  intro l
  induction l with
  | nil => intro i h; simp [lastIdx] at h
  | cons x xs ih =>
    intro i h
    unfold lastIdx at h
    cases hx : lastIdx c xs with
    | some j =>
      rw [hx] at h
      injection h with h
      subst h
      obtain ⟨hj, hg⟩ := ih j hx
      exact ⟨Nat.succ_lt_succ hj, hg⟩
    | none =>
      rw [hx] at h
      by_cases hxc : x = c
      · simp only [hxc, if_pos rfl] at h
        injection h with h
        subst h
        exact ⟨Nat.succ_pos _, hxc⟩
      · simp [hxc] at h

theorem pyRfind_ge (s : String) (c : Char) : -1 ≤ pyRfind s c := by
  unfold pyRfind
  cases lastIdx c s.toList with
  | some i => simp; omega
  | none => simp

/-- The extension produced by `splitext` is empty or starts with a dot, so
it never equals the bare string `"in"`. -/
theorem splitext_snd_ne_in (p : String) : (splitext p).2 ≠ "in" := by
  unfold splitext
  split
  · rename_i hlt
    split
    · intro h
      simp at h
    · cases hL : lastIdx '.' p.toList with
      | none =>
        exfalso
        have hd : pyRfind p '.' = -1 := by unfold pyRfind; rw [hL]
        have hg := pyRfind_ge p '/'
        rw [hd] at hlt
        omega
      | some j =>
        have hdj : pyRfind p '.' = (j : Int) := by unfold pyRfind; rw [hL]
        obtain ⟨hj, hg⟩ := lastIdx_get '.' p.toList j hL
        intro h
        have h2 : String.mk (p.toList.drop (pyRfind p '.').toNat) = "in" := h
        rw [hdj] at h2
        have hjn : ((j : Int)).toNat = j := by omega
        rw [hjn] at h2
        rw [List.drop_eq_getElem_cons hj] at h2
        have h3 : (p.toList[j] : Char) = '.' := by
          simpa [List.get_eq_getElem] using hg
        rw [h3] at h2
        have h4 := congrArg String.data h2
        have h5 := congrArg (fun l => l.head?) h4
        simp at h5
  · intro h
    simp at h

theorem strData_append (a b : String) : (a ++ b).data = a.data ++ b.data := by
  cases a; cases b; rfl

theorem strExt (a b : String) (h : a.data = b.data) : a = b := by
  cases a; cases b; exact congrArg String.mk h

theorem strAppend_assoc (a b c : String) : a ++ b ++ c = a ++ (b ++ c) := by
  apply strExt
  simp [strData_append, List.append_assoc]

/-! ## Per-branch behaviour of `processLine` -/

/-- A `!QSYS wt=` line is a no-op when the walltime is already set. -/
theorem processLine_wt_set (st : pstate) (l : String) (w : Nat)
    (hp : pStarts (pstrip l) "!QSYS wt=" = true)
    (hw : st.data.walltime = some w) :
    processLine st l = .ok st := by
  have hnp : pStarts (pstrip l) "!QSYS np=" = false :=
    pStarts_excl _ _ _ hp (by decide) (by decide)
  have hend : pStarts (pstrip l) "$end" = false :=
    pStarts_excl _ _ _ hp (by decide) (by decide)
  have hmol : pStarts (pstrip l) "$molecule" = false :=
    pStarts_excl _ _ _ hp (by decide) (by decide)
  have hrem : pStarts (pstrip l) "$rem" = false :=
    pStarts_excl _ _ _ hp (by decide) (by decide)
  have hread : pStarts (pstrip l) "READ" = false :=
    pStarts_excl _ _ _ hp (by decide) (by decide)
  have hthr : pStarts (pstrip l) "threads" = false :=
    pStarts_excl _ _ _ hp (by decide) (by decide)
  have hmem : pStarts (pstrip l) "mem_total" = false :=
    pStarts_excl _ _ _ hp (by decide) (by decide)
  unfold processLine
  simp only [hp, hnp, hend, hmol, hrem, hread, hthr, hmem, hw,
    Bool.false_eq_true, false_and, and_false, if_false, ite_self,
    reduceCtorEq, ite_false]
  cases st.sect with
  | none => simp
  | some sec => simp [ite_self]

/-- A `!QSYS wt=` line with unset walltime and a parsable value sets the
walltime. -/
theorem processLine_wt_unset (st : pstate) (l : String) (t : Nat)
    (hp : pStarts (pstrip l) "!QSYS wt=" = true)
    (hw : st.data.walltime = none)
    (hi : interpret_string_as_time_interval (pstrip (strDrop (pstrip l) 9)) = some t) :
    processLine st l = .ok { st with data := { st.data with walltime := some t } } := by
  unfold processLine
  simp only [hp, hw, hi, true_and, if_pos, and_self, ite_true]

/-- A `!QSYS wt=` line with unset walltime and an unparsable value raises
`TypeError` (the `except` clause names `ArgumentParser`, which is not an
exception class). -/
theorem processLine_wt_bad (st : pstate) (l : String)
    (hp : pStarts (pstrip l) "!QSYS wt=" = true)
    (hw : st.data.walltime = none)
    (hi : interpret_string_as_time_interval (pstrip (strDrop (pstrip l) 9)) = none) :
    processLine st l =
      .error (.typeError "catching classes that do not inherit from BaseException is not allowed") := by
  unfold processLine
  simp only [hp, hw, hi, true_and, and_self, ite_true]

/-- A `!QSYS np=` line is a no-op when a node type is already present. -/
theorem processLine_np_present (st : pstate) (l : String)
    (hp : pStarts (pstrip l) "!QSYS np=" = true)
    (hn : st.data.nodes ≠ []) :
    processLine st l = .ok st := by
  have hwt : pStarts (pstrip l) "!QSYS wt=" = false :=
    pStarts_excl _ _ _ hp (by decide) (by decide)
  have hend : pStarts (pstrip l) "$end" = false :=
    pStarts_excl _ _ _ hp (by decide) (by decide)
  have hmol : pStarts (pstrip l) "$molecule" = false :=
    pStarts_excl _ _ _ hp (by decide) (by decide)
  have hrem : pStarts (pstrip l) "$rem" = false :=
    pStarts_excl _ _ _ hp (by decide) (by decide)
  have hread : pStarts (pstrip l) "READ" = false :=
    pStarts_excl _ _ _ hp (by decide) (by decide)
  have hthr : pStarts (pstrip l) "threads" = false :=
    pStarts_excl _ _ _ hp (by decide) (by decide)
  have hmem : pStarts (pstrip l) "mem_total" = false :=
    pStarts_excl _ _ _ hp (by decide) (by decide)
  have hnn : ¬ st.data.no_nodes = 0 := by
    unfold queuing_system_data.no_nodes
    simpa using hn
  unfold processLine
  simp only [hwt, hend, hmol, hrem, hread, hthr, hmem,
    Bool.false_eq_true, false_and, if_false, ite_self, ite_false,
    hnn, and_false]
  cases st.sect with
  | none => simp
  | some sec => simp [ite_self]

/-- A `!QSYS np=` line with no node type yet and a parsable value adds a
single node type with that processor count. -/
theorem processLine_np_absent (st : pstate) (l : String) (t : Nat)
    (hp : pStarts (pstrip l) "!QSYS np=" = true)
    (hn : st.data.nodes = [])
    (hi : interpret_string_as_time_interval (pstrip (strDrop (pstrip l) 9)) = some t) :
    processLine st l =
      .ok { st with data := st.data.add_node_type { no_procs := (t : Int) } } := by
  have hwt : pStarts (pstrip l) "!QSYS wt=" = false :=
    pStarts_excl _ _ _ hp (by decide) (by decide)
  have hnn : st.data.no_nodes = 0 := by
    unfold queuing_system_data.no_nodes
    simp [hn]
  unfold processLine
  simp only [hwt, Bool.false_eq_true, false_and, if_false, ite_false,
    hp, hnn, and_self, true_and, ite_true, hi]

/-- A `threads N` line inside a `$rem` section. -/
theorem processLine_threads (st : pstate) (l : String) (no : Int)
    (hs : st.sect = some "rem")
    (hp : pStarts (pstrip l) "threads" = true)
    (hi : pyInt (pstrip (strDrop (pstrip l) 7)) = some no) :
    processLine st l = .ok (if (st.data.no_nodes : Int) < no then
      { st with data := st.data.add_node_type ⟨no - (st.data.no_nodes : Int)⟩ }
      else st) := by
  have hwt : pStarts (pstrip l) "!QSYS wt=" = false :=
    pStarts_excl _ _ _ hp (by decide) (by decide)
  have hnp : pStarts (pstrip l) "!QSYS np=" = false :=
    pStarts_excl _ _ _ hp (by decide) (by decide)
  have hend : pStarts (pstrip l) "$end" = false :=
    pStarts_excl _ _ _ hp (by decide) (by decide)
  unfold processLine
  simp only [hwt, hnp, hend, Bool.false_eq_true, false_and, if_false,
    ite_false, hs, hp, hi, ite_true, String.reduceEq, reduceCtorEq]
  split
  · rename_i hlt
    simp [if_pos hlt]
  · rename_i hlt
    simp [if_neg hlt]

/-- A `threads` line with an unparsable value inside `$rem` is skipped. -/
theorem processLine_threads_bad (st : pstate) (l : String)
    (hs : st.sect = some "rem")
    (hp : pStarts (pstrip l) "threads" = true)
    (hi : pyInt (pstrip (strDrop (pstrip l) 7)) = none) :
    processLine st l = .ok st := by
  have hwt : pStarts (pstrip l) "!QSYS wt=" = false :=
    pStarts_excl _ _ _ hp (by decide) (by decide)
  have hnp : pStarts (pstrip l) "!QSYS np=" = false :=
    pStarts_excl _ _ _ hp (by decide) (by decide)
  have hend : pStarts (pstrip l) "$end" = false :=
    pStarts_excl _ _ _ hp (by decide) (by decide)
  unfold processLine
  simp only [hwt, hnp, hend, Bool.false_eq_true, false_and, if_false,
    ite_false, hs, hp, hi, ite_true, String.reduceEq, reduceCtorEq]

/-- A `mem_total N` line inside a `$rem` section sets each memory field that
is still unset to `N*1024*1024` and leaves set fields unchanged. -/
theorem processLine_memtotal (st : pstate) (l : String) (no : Int)
    (hs : st.sect = some "rem")
    (hp : pStarts (pstrip l) "mem_total" = true)
    (hi : pyInt (pstrip (strDrop (pstrip l) 9)) = some no) :
    processLine st l = .ok { st with data :=
      { st.data with
        physical_memory := some (st.data.physical_memory.getD (no * 1024 * 1024))
        virtual_memory := some (st.data.virtual_memory.getD (no * 1024 * 1024)) } } := by
  have hwt : pStarts (pstrip l) "!QSYS wt=" = false :=
    pStarts_excl _ _ _ hp (by decide) (by decide)
  have hnp : pStarts (pstrip l) "!QSYS np=" = false :=
    pStarts_excl _ _ _ hp (by decide) (by decide)
  have hend : pStarts (pstrip l) "$end" = false :=
    pStarts_excl _ _ _ hp (by decide) (by decide)
  have hthr : pStarts (pstrip l) "threads" = false :=
    pStarts_excl _ _ _ hp (by decide) (by decide)
  obtain ⟨sc, ⟨dw, dpm, dvm, djn, dnd⟩, ci⟩ := st
  dsimp only at hs ⊢
  subst hs
  unfold processLine
  simp only [hwt, hnp, hend, hthr, Bool.false_eq_true, false_and, if_false,
    ite_false, hp, hi, ite_true, String.reduceEq, reduceCtorEq]
  cases dpm <;> cases dvm <;> simp

/-- Any successfully processed line moves the section as `specSec` does,
extends the copy-in list exactly by `readOf`, and never touches the job
name. -/
theorem processLine_frame (st : pstate) (l : String) (st2 : pstate)
    (h : processLine st l = .ok st2) :
    st2.sect = specSec st.sect l ∧
    st2.copy_in = st.copy_in ++ readOf st.sect l ∧
    st2.data.job_name = st.data.job_name := by
  simp only [processLine] at h
  split at h
  · rename_i hc
    have hp := hc.1
    have hend : pStarts (pstrip l) "$end" = false :=
      pStarts_excl _ _ _ hp (by decide) (by decide)
    have hmol : pStarts (pstrip l) "$molecule" = false :=
      pStarts_excl _ _ _ hp (by decide) (by decide)
    have hrem : pStarts (pstrip l) "$rem" = false :=
      pStarts_excl _ _ _ hp (by decide) (by decide)
    have hread : pStarts (pstrip l) "READ" = false :=
      pStarts_excl _ _ _ hp (by decide) (by decide)
    split at h
    · injection h with h
      subst h
      refine ⟨?_, ?_, rfl⟩
      · cases hs : st.sect <;> simp [specSec, hend, hmol, hrem]
      · cases hs : st.sect <;> simp [readOf, hread]
    · exact absurd h (by simp)
  · split at h
    · rename_i hc
      have hp := hc.1
      have hend : pStarts (pstrip l) "$end" = false :=
        pStarts_excl _ _ _ hp (by decide) (by decide)
      have hmol : pStarts (pstrip l) "$molecule" = false :=
        pStarts_excl _ _ _ hp (by decide) (by decide)
      have hrem : pStarts (pstrip l) "$rem" = false :=
        pStarts_excl _ _ _ hp (by decide) (by decide)
      have hread : pStarts (pstrip l) "READ" = false :=
        pStarts_excl _ _ _ hp (by decide) (by decide)
      split at h
      · injection h with h
        subst h
        refine ⟨?_, ?_, rfl⟩
        · cases hs : st.sect <;> simp [specSec, hend, hmol, hrem]
        · cases hs : st.sect <;> simp [readOf, hread]
      · exact absurd h (by simp)
    · split at h
      · rename_i hend
        have hread : pStarts (pstrip l) "READ" = false :=
          pStarts_excl _ _ _ hend (by decide) (by decide)
        injection h with h
        subst h
        refine ⟨?_, ?_, rfl⟩
        · simp [specSec, hend]
        · cases hs : st.sect <;> simp [readOf, hread]
      · rename_i hend
        have hendf : pStarts (pstrip l) "$end" = false := by
          simpa using hend
        split at h
        · -- st.sect = none
          rename_i hs
          split at h
          · rename_i hmol
            injection h with h
            subst h
            exact ⟨by simp [specSec, hendf, hmol, hs], by simp [readOf, hs], rfl⟩
          · split at h
            · rename_i hmol hrem
              injection h with h
              subst h
              refine ⟨?_, by simp [readOf, hs], rfl⟩
              simp only [specSec, hendf, hs]
              simp [Bool.not_eq_true] at hmol
              simp [hmol, hrem]
            · rename_i hmol hrem
              injection h with h
              subst h
              refine ⟨?_, by simp [readOf, hs], rfl⟩
              simp only [specSec, hendf, hs]
              simp [Bool.not_eq_true] at hmol hrem
              simp [hmol, hrem]
        · -- st.sect = some sec
          rename_i sec hs
          split at h
          · -- sec = "molecule"
            rename_i hsm
            subst hsm
            split at h
            · rename_i hread
              injection h with h
              subst h
              exact ⟨by simp [specSec, hendf, hs], by simp [readOf, hs, hread], rfl⟩
            · rename_i hread
              injection h with h
              subst h
              refine ⟨by simp [specSec, hendf, hs], ?_, rfl⟩
              simp [Bool.not_eq_true] at hread
              simp [readOf, hs, hread]
          · -- sec ≠ "molecule"
            rename_i hsm
            have hro : readOf (some sec) l = [] := by
              simp [readOf, hsm]
            have hsc : specSec (some sec) l = some sec := by
              simp [specSec, hendf]
            split at h
            · -- sec = "rem"
              split at h
              · -- threads
                split at h
                · injection h with h
                  subst h
                  exact ⟨by simp [hs, hsc], by simp [hs, hro], rfl⟩
                · split at h
                  · injection h with h
                    subst h
                    exact ⟨by simp [hs, hsc], by simp [hs, hro], rfl⟩
                  · injection h with h
                    subst h
                    exact ⟨by simp [hs, hsc], by simp [hs, hro], rfl⟩
              · split at h
                · -- mem_total
                  split at h
                  · injection h with h
                    subst h
                    exact ⟨by simp [hs, hsc], by simp [hs, hro], rfl⟩
                  · injection h with h
                    subst h
                    refine ⟨by simp [hs, hsc], by simp [hs, hro], ?_⟩
                    split <;> split <;> rfl
                · injection h with h
                  subst h
                  exact ⟨by simp [hs, hsc], by simp [hs, hro], rfl⟩
            · injection h with h
              subst h
              exact ⟨by simp [hs, hsc], by simp [hs, hro], rfl⟩

/-- A `mem_total` line with an unparsable value inside `$rem` is skipped. -/
theorem processLine_memtotal_bad (st : pstate) (l : String)
    (hs : st.sect = some "rem")
    (hp : pStarts (pstrip l) "mem_total" = true)
    (hi : pyInt (pstrip (strDrop (pstrip l) 9)) = none) :
    processLine st l = .ok st := by
  have hwt : pStarts (pstrip l) "!QSYS wt=" = false :=
    pStarts_excl _ _ _ hp (by decide) (by decide)
  have hnp : pStarts (pstrip l) "!QSYS np=" = false :=
    pStarts_excl _ _ _ hp (by decide) (by decide)
  have hend : pStarts (pstrip l) "$end" = false :=
    pStarts_excl _ _ _ hp (by decide) (by decide)
  have hthr : pStarts (pstrip l) "threads" = false :=
    pStarts_excl _ _ _ hp (by decide) (by decide)
  unfold processLine
  simp only [hwt, hnp, hend, hthr, Bool.false_eq_true, false_and, if_false,
    ite_false, hs, hp, hi, ite_true, String.reduceEq, reduceCtorEq]

/-- Folding the scanner over a whole file: the copy-in list grows exactly by
the claim-side `specReads`, and the job name is never modified. -/
theorem parseLines_frame (ls : List String) (st : pstate) (r : pstate)
    (h : parseLines st ls = .ok r) :
    r.copy_in = st.copy_in ++ specReads st.sect ls ∧
    r.data.job_name = st.data.job_name := by
  induction ls generalizing st with
  | nil =>
    unfold parseLines at h
    injection h with h
    subst h
    simp [specReads]
  | cons l ls ih =>
    unfold parseLines at h
    cases hpl : processLine st l with
    | error e => rw [hpl] at h; exact absurd h (by simp)
    | ok st2 =>
      rw [hpl] at h
      obtain ⟨hsec, hci, hjn⟩ := processLine_frame st l st2 hpl
      obtain ⟨ih1, ih2⟩ := ih st2 h
      refine ⟨?_, by rw [ih2, hjn]⟩
      rw [ih1, hci, hsec]
      simp [specReads, List.append_assoc]

/-- No successfully processed line ever overwrites an already-set walltime,
physical memory or virtual memory. -/
theorem processLine_preserve (st : pstate) (l : String) (st2 : pstate)
    (h : processLine st l = .ok st2) :
    (∀ w : Nat, st.data.walltime = some w → st2.data.walltime = some w) ∧
    (∀ m : Int, st.data.physical_memory = some m → st2.data.physical_memory = some m) ∧
    (∀ m : Int, st.data.virtual_memory = some m → st2.data.virtual_memory = some m) := by
  simp only [processLine] at h
  split at h
  · rename_i hc
    split at h
    · injection h with h
      subst h
      refine ⟨?_, fun v hv => hv, fun v hv => hv⟩
      intro v hv
      rw [hc.2] at hv
      exact absurd hv (by simp)
    · exact absurd h (by simp)
  · split at h
    · split at h
      · injection h with h
        subst h
        exact ⟨fun v hv => hv, fun v hv => hv, fun v hv => hv⟩
      · exact absurd h (by simp)
    · split at h
      · injection h with h
        subst h
        exact ⟨fun v hv => hv, fun v hv => hv, fun v hv => hv⟩
      · split at h
        · split at h
          · injection h with h
            subst h
            exact ⟨fun v hv => hv, fun v hv => hv, fun v hv => hv⟩
          · split at h
            · injection h with h
              subst h
              exact ⟨fun v hv => hv, fun v hv => hv, fun v hv => hv⟩
            · injection h with h
              subst h
              exact ⟨fun v hv => hv, fun v hv => hv, fun v hv => hv⟩
        · split at h
          · split at h
            · injection h with h
              subst h
              exact ⟨fun v hv => hv, fun v hv => hv, fun v hv => hv⟩
            · injection h with h
              subst h
              exact ⟨fun v hv => hv, fun v hv => hv, fun v hv => hv⟩
          · split at h
            · split at h
              · split at h
                · injection h with h
                  subst h
                  exact ⟨fun v hv => hv, fun v hv => hv, fun v hv => hv⟩
                · split at h
                  · injection h with h
                    subst h
                    exact ⟨fun v hv => hv, fun v hv => hv, fun v hv => hv⟩
                  · injection h with h
                    subst h
                    exact ⟨fun v hv => hv, fun v hv => hv, fun v hv => hv⟩
              · split at h
                · split at h
                  · injection h with h
                    subst h
                    exact ⟨fun v hv => hv, fun v hv => hv, fun v hv => hv⟩
                  · injection h with h
                    subst h
                    refine ⟨?_, ?_, ?_⟩ <;> intro v hv <;>
                      by_cases hpm : st.data.physical_memory = none <;>
                      by_cases hvm : st.data.virtual_memory = none <;>
                      simp [hv, hpm, hvm]
                · injection h with h
                  subst h
                  exact ⟨fun v hv => hv, fun v hv => hv, fun v hv => hv⟩
            · injection h with h
              subst h
              exact ⟨fun v hv => hv, fun v hv => hv, fun v hv => hv⟩

/-! ## Claim theorems -/

/-- C1: on a fully configured builder (executable and outfile set, savedir
present whenever the save flag is set), `build_script` registers exactly four
hooks before delegating to the base class: the copy-in hook at priority
-1000, the Q-Chem payload hook at priority 0, the copy-out hook at priority
1000 and the error copy-out hook at priority -1000. -/
theorem C1_build_script_hooks (s : v40_state) (a : v40_qchem_args)
    (hqa : s.qchem_args = some a)
    (hexe : ¬ a.qchem_executable = none)
    (hout : ¬ a.outfile = none)
    (hsave : ¬ (truthy a.save_flag = true ∧ a.savedir = none))
    (hph : s.payload_hooks = [])
    (heh : s.error_hooks = []) :
    build_script s = .ok { s with
      payload_hooks := [(jsb_hook.copy_in s.files_copy_in, -1000),
                        (jsb_hook.qchem_payload a, 0),
                        (jsb_hook.copy_out s.files_copy_out, 1000)]
      error_hooks := [(jsb_hook.copy_out s.files_copy_error_out, -1000)] } := by
  simp only [build_script, hqa]
  rw [if_neg hexe, if_neg hout, if_neg hsave, hph, heh]
  simp

theorem C1_build_script_hooks_witness :
    build_script ⟨⟨none, none, none, none, []⟩,
      some ⟨some "mol.in", some "mol.out", some false, none, some false,
            some false, some "/opt/qchem", some false⟩,
      some ["mol.in"], some ["mol.out"], some ["mol.out"], [], []⟩ =
    .ok ⟨⟨none, none, none, none, []⟩,
      some ⟨some "mol.in", some "mol.out", some false, none, some false,
            some false, some "/opt/qchem", some false⟩,
      some ["mol.in"], some ["mol.out"], some ["mol.out"],
      [(jsb_hook.copy_in (some ["mol.in"]), -1000),
       (jsb_hook.qchem_payload ⟨some "mol.in", some "mol.out", some false, none,
          some false, some false, some "/opt/qchem", some false⟩, 0),
       (jsb_hook.copy_out (some ["mol.out"]), 1000)],
      [(jsb_hook.copy_out (some ["mol.out"]), -1000)]⟩ :=
  C1_build_script_hooks _ _ rfl (by decide) (by decide) (by decide) rfl rfl

/-- C2: the scanner gives command-line values preference: a `!QSYS wt=` line
is ignored when the walltime is already set, a `!QSYS np=` line is ignored
when a node type is already present, and no line ever overwrites an
already-set physical or virtual memory (in particular a `mem_total` line
leaves them unchanged when set). -/
theorem C2_cmdline_preference (st : pstate) (l : String) (st2 : pstate)
    (h : processLine st l = .ok st2) :
    (∀ w : Nat, pStarts (pstrip l) "!QSYS wt=" = true →
        st.data.walltime = some w → st2 = st) ∧
    (pStarts (pstrip l) "!QSYS np=" = true → st.data.nodes ≠ [] → st2 = st) ∧
    (∀ m : Int, st.data.physical_memory = some m →
        st2.data.physical_memory = some m) ∧
    (∀ m : Int, st.data.virtual_memory = some m →
        st2.data.virtual_memory = some m) := by
  refine ⟨?_, ?_, (processLine_preserve st l st2 h).2.1,
    (processLine_preserve st l st2 h).2.2⟩
  · intro w hp hw
    rw [processLine_wt_set st l w hp hw] at h
    injection h with h
    exact h.symm
  · intro hp hn
    rw [processLine_np_present st l hp hn] at h
    injection h with h
    exact h.symm

theorem C2_cmdline_preference_witness :
    processLine ⟨some "rem", ⟨some 60, some 7, some 9, none, [⟨2⟩]⟩, []⟩
        "!QSYS wt=100" = .ok ⟨some "rem", ⟨some 60, some 7, some 9, none, [⟨2⟩]⟩, []⟩ ∧
    (⟨some "rem", ⟨some 60, some 7, some 9, none, [⟨2⟩]⟩, []⟩ : pstate) =
      ⟨some "rem", ⟨some 60, some 7, some 9, none, [⟨2⟩]⟩, []⟩ := by
  refine ⟨by decide, ?_⟩
  exact (C2_cmdline_preference
    ⟨some "rem", ⟨some 60, some 7, some 9, none, [⟨2⟩]⟩, []⟩ "!QSYS wt=100"
    ⟨some "rem", ⟨some 60, some 7, some 9, none, [⟨2⟩]⟩, []⟩ (by decide)).1 60
    (by decide) rfl

/-- C4 counterexample: with one node type of 2 processors already present
(so the configuration provides 2 < 4 processors), the line `threads 4`
inside `$rem` adds a node type with 3 processors, making the total 5, not
4 as the claim states. -/
theorem C4_threads_counterexample :
    ((⟨none, none, none, none, [⟨2⟩]⟩ : queuing_system_data).no_procs < 4) ∧
    processLine ⟨some "rem", ⟨none, none, none, none, [⟨2⟩]⟩, []⟩ "threads 4" =
      .ok ⟨some "rem", ⟨none, none, none, none, [⟨2⟩, ⟨3⟩]⟩, []⟩ ∧
    ¬ ((⟨none, none, none, none, [⟨2⟩, ⟨3⟩]⟩ : queuing_system_data).no_procs = 4) := by
  exact ⟨by decide, by decide, by decide⟩

/-- C4 (amended): a `threads N` line inside `$rem` compares `N` against the
number of node types (not processors); when that count is below `N` it adds
one node type with `N` minus the node-type count processors.  When no node
type is present at all, the total processor count does become `N`.  A
non-integer value leaves the configuration unchanged. -/
theorem C4_threads_amended (st : pstate) (l : String)
    (hs : st.sect = some "rem")
    (hp : pStarts (pstrip l) "threads" = true) :
    (∀ no : Int, pyInt (pstrip (strDrop (pstrip l) 7)) = some no →
      processLine st l = .ok (if (st.data.no_nodes : Int) < no then
        { st with data := st.data.add_node_type ⟨no - (st.data.no_nodes : Int)⟩ }
        else st)) ∧
    (pyInt (pstrip (strDrop (pstrip l) 7)) = none → processLine st l = .ok st) ∧
    (st.data.nodes = [] → ∀ no : Int,
      pyInt (pstrip (strDrop (pstrip l) 7)) = some no → 0 < no →
      ∃ st2, processLine st l = .ok st2 ∧ st2.data.no_procs = no) := by
  refine ⟨fun no hi => processLine_threads st l no hs hp hi,
    fun hi => processLine_threads_bad st l hs hp hi, ?_⟩
  intro hn no hi hpos
  have h1 := processLine_threads st l no hs hp hi
  have hnn : st.data.no_nodes = 0 := by
    simp [queuing_system_data.no_nodes, hn]
  rw [hnn] at h1
  rw [if_pos (by exact_mod_cast hpos)] at h1
  refine ⟨_, h1, ?_⟩
  simp [queuing_system_data.no_procs, queuing_system_data.add_node_type, hn]

theorem C4_threads_amended_witness :
    pStarts (pstrip "threads 4") "threads" = true ∧
    processLine ⟨some "rem", ⟨none, none, none, none, [⟨2⟩]⟩, []⟩ "threads 4" =
      .ok ⟨some "rem", ⟨none, none, none, none, [⟨2⟩, ⟨3⟩]⟩, []⟩ := by
  refine ⟨by decide, ?_⟩
  have h := (C4_threads_amended ⟨some "rem", ⟨none, none, none, none, [⟨2⟩]⟩, []⟩
    "threads 4" rfl (by decide)).1 4 (by decide)
  exact h.trans (by decide)

/-- C5: a stripped line starting with `!QSYS np=` followed by a decimal
integer `N`, met while no node type is present, adds exactly one node type
with processor count `N`. -/
theorem C5_np_line (st : pstate) (l : String) (n : Nat)
    (hp : pStarts (pstrip l) "!QSYS np=" = true)
    (hn : st.data.nodes = [])
    (hi : interpret_string_as_time_interval (pstrip (strDrop (pstrip l) 9)) = some n) :
    processLine st l =
      .ok { st with data := { st.data with nodes := [⟨(n : Int)⟩] } } := by
  rw [processLine_np_absent st l n hp hn hi]
  simp [queuing_system_data.add_node_type, hn]

theorem C5_np_line_witness :
    interpret_string_as_time_interval (pstrip (strDrop (pstrip "!QSYS np=4") 9)) = some 4 ∧
    processLine ⟨none, ⟨none, none, none, none, []⟩, []⟩ "!QSYS np=4" =
      .ok ⟨none, ⟨none, none, none, none, [⟨4⟩]⟩, []⟩ := by
  refine ⟨by decide, ?_⟩
  exact C5_np_line ⟨none, ⟨none, none, none, none, []⟩, []⟩ "!QSYS np=4" 4
    (by decide) rfl (by decide)

/-- C7: a `mem_total N` line inside `$rem` sets the physical memory to
exactly `N*1024*1024` bytes when it is unset and the virtual memory to
exactly `N*1024*1024` bytes when it is unset, touching nothing else. -/
theorem C7_memtotal (st : pstate) (l : String) (no : Int)
    (hs : st.sect = some "rem")
    (hp : pStarts (pstrip l) "mem_total" = true)
    (hi : pyInt (pstrip (strDrop (pstrip l) 9)) = some no) :
    ∃ st2, processLine st l = .ok st2 ∧
      (st.data.physical_memory = none →
        st2.data.physical_memory = some (no * 1024 * 1024)) ∧
      (st.data.virtual_memory = none →
        st2.data.virtual_memory = some (no * 1024 * 1024)) ∧
      st2.sect = st.sect ∧ st2.copy_in = st.copy_in ∧
      st2.data.walltime = st.data.walltime ∧
      st2.data.nodes = st.data.nodes := by
  refine ⟨_, processLine_memtotal st l no hs hp hi, ?_, ?_, rfl, rfl, rfl, rfl⟩
  · intro hpm
    simp [hpm]
  · intro hvm
    simp [hvm]

theorem C7_memtotal_witness :
    pyInt (pstrip (strDrop (pstrip "mem_total 2") 9)) = some 2 ∧
    ∃ st2, processLine ⟨some "rem", ⟨none, none, none, none, []⟩, []⟩
        "mem_total 2" = .ok st2 ∧
      st2.data.physical_memory = some 2097152 ∧
      st2.data.virtual_memory = some 2097152 := by
  refine ⟨by decide, ?_⟩
  obtain ⟨st2, h1, h2, h3, _⟩ :=
    C7_memtotal ⟨some "rem", ⟨none, none, none, none, []⟩, []⟩ "mem_total 2" 2
      rfl (by decide) (by decide)
  exact ⟨st2, h1, h2 rfl, h3 rfl⟩

/-- C8: a `!QSYS wt=` line whose value cannot be interpreted as a time
interval, met while no walltime is set, raises `TypeError` — the source's
`except ArgumentParser` names a class that is not an exception class — so
the scan aborts instead of skipping the line and continuing. -/
theorem C8_bad_walltime_raises :
    parseLines ⟨none, ⟨none, none, none, none, []⟩, ["mol.in"]⟩
      ["!QSYS wt=not-a-time", "$rem", "mem_total 100"] =
      .error (.typeError
        "catching classes that do not inherit from BaseException is not allowed") := by
  decide

/-- C3: for a configuration with the outfile set (and the default
`use_perf = False`), the payload `generate` returns exactly the script the
claim describes — QCSCRATCH export first, then the executable invocation
with `-save`, `-np n`, `-nt n`, quoted infile, quoted outfile, quoted
savedir in that fixed order (each exactly when set), the exit-status
capture, and the success-line check forcing the return value to 1 —
followed by the savedir listing block. -/
theorem C3_payload_script (i o exe : String) (sd : Option String)
    (sv np nt : Bool) (d : queuing_system_data)
    (ev : calculation_environment) :
    generate ⟨some i, some o, some sv, sd, some np, some nt, some exe,
      some false⟩ d ev =
    .ok (generate_claim i o exe sd sv np nt d.no_procs
           ev.node_scratch_dir ev.return_value ++ savedir_listing sd) := by
  cases sv <;> cases np <;> cases nt <;> cases sd <;>
    · dsimp only [generate, generate_claim, pyOptStr, savedir_listing]
      refine congrArg Except.ok ?_
      apply strExt
      simp only [strData_append, List.append_assoc]

theorem C3_payload_script_witness :
    generate ⟨some "mol.in", some "mol.out", some true, some "sv",
        some false, some true, some "/opt/qchem", some false⟩
      ⟨none, none, none, none, [⟨4⟩]⟩ ⟨"NODE_SCRATCH_DIR", "RETURN_VALUE"⟩ =
    .ok (generate_claim "mol.in" "mol.out" "/opt/qchem" (some "sv") true false
           true 4 "NODE_SCRATCH_DIR" "RETURN_VALUE" ++
         savedir_listing (some "sv")) :=
  C3_payload_script "mol.in" "mol.out" "/opt/qchem" (some "sv") true false true
    ⟨none, none, none, none, [⟨4⟩]⟩ ⟨"NODE_SCRATCH_DIR", "RETURN_VALUE"⟩

/-- C6: `examine_args` does not raise `SystemExit` when the selector rejects
the `--version` string — the handler in `determine_qchem_path` evaluates
`e.argv` on a `CalledProcessError`, which has no such attribute, so an
`AttributeError` escapes and is not caught by the
`except QChemPathNotDeterminedError` clause.  This refutes the claimed
"raises SystemExit if and only if ... the --version string is rejected". -/
theorem C6_version_reject_not_systemexit :
    examine_args ⟨"mol.in", none, false, none, false, false, some "nosuch", false⟩
      ⟨fun p => if p = "mol.in" then some [] else none, fun _ => none⟩
      ⟨⟨none, none, none, none, []⟩, none, none, none, none, [], []⟩ =
      .error (.attributeError "CalledProcessError object has no attribute argv") := by
  rfl

/-- C9: when `--out` is not given and `examine_args` succeeds, the outfile is
the full infile path with `.out` appended — `os.path.splitext` yields an
extension with the dot which is compared against the bare string `"in"`, so
the `.in` extension is never stripped — and the job name, when previously
unset, becomes that same unstripped path. -/
theorem C9_outfile_unstripped (args : v40_args) (ev : pyenv) (s s2 : v40_state)
    (hout : args.out = none)
    (h : examine_args args ev s = .ok s2) :
    (∃ qa, s2.qchem_args = some qa ∧
      qa.outfile = some (args.infile ++ ".out")) ∧
    (s.qsys_data.job_name = none →
      s2.qsys_data.job_name = some args.infile) := by
  simp only [examine_args, hout] at h
  rw [if_pos (splitext_snd_ne_in args.infile)] at h
  split at h
  · exact absurd h (by simp)
  · split at h
    · exact absurd h (by simp)
    · split at h
      · exact absurd h (by simp)
      · split at h
        · exact absurd h (by simp)
        · rename_i exe hexe
          split at h
          · exact absurd h (by simp)
          · rename_i pr hpr
            injection h with h
            subst h
            refine ⟨⟨_, rfl, rfl⟩, ?_⟩
            intro hjn
            have hfr := (parseLines_frame _ _ _ hpr).2
            rw [hjn] at hfr
            simpa using hfr

theorem C9_outfile_unstripped_witness :
    examine_args ⟨"mol.in", none, false, none, false, false, none, false⟩
      ⟨fun p => if p = "mol.in" then
          some ["$molecule", "READ other.txt", "$end"] else none,
       fun _ => none⟩
      ⟨⟨none, none, none, none, []⟩, none, none, none, none, [], []⟩ =
      .ok ⟨⟨none, none, none, some "mol.in", []⟩,
        some ⟨some "mol.in", some "mol.in.out", some false, none, some false,
              some false, none, some false⟩,
        some ["mol.in", "other.txt"], some ["mol.in.out"],
        some ["mol.in.out"], [], []⟩ ∧
    (∃ qa, (⟨⟨none, none, none, some "mol.in", []⟩,
        some ⟨some "mol.in", some "mol.in.out", some false, none, some false,
              some false, none, some false⟩,
        some ["mol.in", "other.txt"], some ["mol.in.out"],
        some ["mol.in.out"], [], []⟩ : v40_state).qchem_args = some qa ∧
      qa.outfile = some ("mol.in" ++ ".out")) ∧
    ((⟨⟨none, none, none, none, []⟩, none, none, none, none, [], []⟩
        : v40_state).qsys_data.job_name = none →
      (⟨⟨none, none, none, some "mol.in", []⟩,
        some ⟨some "mol.in", some "mol.in.out", some false, none, some false,
              some false, none, some false⟩,
        some ["mol.in", "other.txt"], some ["mol.in.out"],
        some ["mol.in.out"], [], []⟩ : v40_state).qsys_data.job_name =
        some "mol.in") := by
  have hE : examine_args ⟨"mol.in", none, false, none, false, false, none, false⟩
      ⟨fun p => if p = "mol.in" then
          some ["$molecule", "READ other.txt", "$end"] else none,
       fun _ => none⟩
      ⟨⟨none, none, none, none, []⟩, none, none, none, none, [], []⟩ =
      .ok ⟨⟨none, none, none, some "mol.in", []⟩,
        some ⟨some "mol.in", some "mol.in.out", some false, none, some false,
              some false, none, some false⟩,
        some ["mol.in", "other.txt"], some ["mol.in.out"],
        some ["mol.in.out"], [], []⟩ := by rfl
  exact ⟨hE, C9_outfile_unstripped _ _ _ _ rfl hE⟩

/-- C10: after a successful `examine_args`, the copy-in list is the infile
followed by the arguments of all `READ` lines found inside `$molecule`
sections, in file order; the copy-out list is exactly the outfile; and the
error copy-out list is exactly the outfile. -/
theorem C10_copy_lists (args : v40_args) (ev : pyenv) (s s2 : v40_state)
    (h : examine_args args ev s = .ok s2) :
    ∃ outf qa, s2.qchem_args = some qa ∧ qa.outfile = some outf ∧
      s2.files_copy_in = some (args.infile ::
        specReads none ((ev.files args.infile).getD [])) ∧
      s2.files_copy_out = some [outf] ∧
      s2.files_copy_error_out = some [outf] := by
  simp only [examine_args] at h
  split at h
  · exact absurd h (by simp)
  · split at h
    · exact absurd h (by simp)
    · split at h
      · exact absurd h (by simp)
      · split at h
        · exact absurd h (by simp)
        · rename_i exe hexe
          split at h
          · exact absurd h (by simp)
          · rename_i pr hpr
            injection h with h
            subst h
            refine ⟨_, _, rfl, rfl, ?_, rfl, rfl⟩
            have hfr := (parseLines_frame _ _ _ hpr).1
            simp only at hfr
            rw [hfr]
            simp

theorem C10_copy_lists_witness :
    examine_args ⟨"water.in", some "w.out", false, none, false, false, none, false⟩
      ⟨fun p => if p = "water.in" then
          some ["$molecule", "READ geom.xyz", "$end", "$rem", "threads 2", "$end"]
        else none,
       fun _ => none⟩
      ⟨⟨none, none, none, none, []⟩, none, none, none, none, [], []⟩ =
      .ok ⟨⟨none, none, none, some "water.in", [⟨2⟩]⟩,
        some ⟨some "water.in", some "w.out", some false, none, some false,
              some false, none, some false⟩,
        some ["water.in", "geom.xyz"], some ["w.out"], some ["w.out"], [], []⟩ ∧
    ∃ outf qa,
      (⟨⟨none, none, none, some "water.in", [⟨2⟩]⟩,
        some ⟨some "water.in", some "w.out", some false, none, some false,
              some false, none, some false⟩,
        some ["water.in", "geom.xyz"], some ["w.out"], some ["w.out"], [], []⟩
          : v40_state).qchem_args = some qa ∧
      qa.outfile = some outf ∧
      (⟨⟨none, none, none, some "water.in", [⟨2⟩]⟩,
        some ⟨some "water.in", some "w.out", some false, none, some false,
              some false, none, some false⟩,
        some ["water.in", "geom.xyz"], some ["w.out"], some ["w.out"], [], []⟩
          : v40_state).files_copy_in = some ("water.in" ::
        specReads none ((if ("water.in" : String) = "water.in" then
          some ["$molecule", "READ geom.xyz", "$end", "$rem", "threads 2", "$end"]
        else none).getD [])) ∧
      (⟨⟨none, none, none, some "water.in", [⟨2⟩]⟩,
        some ⟨some "water.in", some "w.out", some false, none, some false,
              some false, none, some false⟩,
        some ["water.in", "geom.xyz"], some ["w.out"], some ["w.out"], [], []⟩
          : v40_state).files_copy_out = some [outf] ∧
      (⟨⟨none, none, none, some "water.in", [⟨2⟩]⟩,
        some ⟨some "water.in", some "w.out", some false, none, some false,
              some false, none, some false⟩,
        some ["water.in", "geom.xyz"], some ["w.out"], some ["w.out"], [], []⟩
          : v40_state).files_copy_error_out = some [outf] := by
  have hE : examine_args ⟨"water.in", some "w.out", false, none, false, false, none, false⟩
      ⟨fun p => if p = "water.in" then
          some ["$molecule", "READ geom.xyz", "$end", "$rem", "threads 2", "$end"]
        else none,
       fun _ => none⟩
      ⟨⟨none, none, none, none, []⟩, none, none, none, none, [], []⟩ =
      .ok ⟨⟨none, none, none, some "water.in", [⟨2⟩]⟩,
        some ⟨some "water.in", some "w.out", some false, none, some false,
              some false, none, some false⟩,
        some ["water.in", "geom.xyz"], some ["w.out"], some ["w.out"], [], []⟩ := by
    rfl
  exact ⟨hE, C10_copy_lists _ _ _ _ hE⟩
